import Mathlib

/-!
Verification development for the macOS audit suite
(`stig_runner.py`, `ai_audit_agent.py`).

The Python sources are shallowly embedded: text is a list of characters,
the regex-driven extraction heuristics are translated into executable
scanning functions, the command runner and the advisory (LLM) calls are
modelled by explicit oracles describing the outcome of the external
process, and exceptions escaping a function are modelled with `Except`.
-/

namespace Audit

/-- Text is modelled as a list of characters (teletype of a Python `str`). -/
abbrev Str := List Char

/-- Coerce a Lean string literal into the character-list representation. -/
def S (s : String) : Str := s.data

/-- The characters matched by the regex class `\s` and stripped by
`str.strip()` for the ASCII inputs this tool processes:
space, tab, newline, carriage return, vertical tab, form feed. -/
def pySpace (c : Char) : Bool :=
  c == ' ' || c == '\t' || c == '\n' || c == '\r' || c == '\x0b' || c == '\x0c'

/-- The regex class `[A-Za-z0-9_]` (a "word" character). -/
def wordChar (c : Char) : Bool :=
  c.isAlpha || c.isDigit || c == '_'

/-- `str.lstrip()`. -/
def pyLStrip (s : Str) : Str := s.dropWhile pySpace

/-- `str.rstrip()`. -/
def pyRStrip (s : Str) : Str := (s.reverse.dropWhile pySpace).reverse

/-- `str.strip()`. -/
def pyStrip (s : Str) : Str := pyRStrip (pyLStrip s)

/-- Whether `p` is a prefix of `s` (`str.startswith`). -/
def startsWithStr : Str → Str → Bool
  | [], _ => true
  | _ :: _, [] => false
  | p :: ps, c :: cs => p == c && startsWithStr ps cs

/-- Whether `p` occurs as a contiguous substring of `s` (Python `p in s`). -/
def containsSub (p : Str) : Str → Bool
  | [] => startsWithStr p []
  | c :: rest => startsWithStr p (c :: rest) || containsSub p rest

/-- Earliest index at which `p` occurs in `s`, if any (`re`-style search). -/
def findSub (p : Str) : Str → Option Nat
  | [] => if startsWithStr p [] then some 0 else none
  | c :: rest =>
    if startsWithStr p (c :: rest) then some 0
    else (findSub p rest).map (· + 1)

/-- `str.splitlines()`: split on `\n`, `\r\n` and `\r`; a trailing
terminator does not produce a trailing empty line. -/
def splitLinesAux : Str → Str → List Str
  | [], acc => if acc.isEmpty then [] else [acc.reverse]
  | '\r' :: '\n' :: rest, acc => acc.reverse :: splitLinesAux rest []
  | '\r' :: rest, acc => acc.reverse :: splitLinesAux rest []
  | '\n' :: rest, acc => acc.reverse :: splitLinesAux rest []
  | c :: rest, acc => splitLinesAux rest (c :: acc)

/-- `str.splitlines()`. -/
def splitLines (s : Str) : List Str := splitLinesAux s []

/-- `"\n".join(lines)`. -/
def joinNL : List Str → Str
  | [] => []
  | [l] => l
  | l :: rest => l ++ '\n' :: joinNL rest

/-- The accumulator loop of `join_backslash_lines` (stig_runner.py:40-53):
each line is right-stripped and appended to the buffer; a buffer ending in
a backslash drops the backslash and continues, otherwise the buffer is
emitted (empty buffers are emitted too, matching `out.append(buf)`);
a non-empty trailing buffer is emitted at the end. -/
def joinBackslashAux : List Str → Str → List Str
  | [], buf => if buf.isEmpty then [] else [buf]
  | line :: rest, buf =>
    let buf' := buf ++ pyRStrip line
    if buf'.getLast? == some '\\' then joinBackslashAux rest buf'.dropLast
    else buf' :: joinBackslashAux rest []

/-- `join_backslash_lines` (stig_runner.py:40-53). -/
def join_backslash_lines (s : Str) : Str :=
  joinNL (joinBackslashAux (splitLines s) [])

/-- `_EXEC_WHITELIST_CMDS` (stig_runner.py:25-29). -/
def execWhitelistCmds : List Str :=
  [S "osascript", S "defaults", S "profiles", S "security", S "csrutil",
   S "spctl", S "pwpolicy", S "launchctl", S "grep", S "awk", S "sed",
   S "xmllint", S "stat", S "ls", S "find", S "sysctl", S "more", S "cat",
   S "dscl", S "cupsctl", S "pgrep", S "mdmclient", S "sshd", S "sudo",
   S "sh", S "bash", S "zsh", S "printf", S "echo"]

/-- `re.match(r"^[A-Za-z_][A-Za-z0-9_]*\s*=\s*", cmd)`: the line starts
with an identifier, optional whitespace, then `=` (the trailing `\s*`
always matches).  The identifier is the maximal word-character run, which
is the only run the backtracking engine can accept. -/
def isAssignmentShape (s : Str) : Bool :=
  match s with
  | [] => false
  | c :: _ =>
    if c.isAlpha || c == '_' then
      let run := s.takeWhile wordChar
      match (s.drop run.length).dropWhile pySpace with
      | '=' :: _ => true
      | _ => false
    else false

/-- `looks_executable` (stig_runner.py:55-62). -/
def looks_executable (cmd : Str) : Bool :=
  let c := pyStrip cmd
  if c.isEmpty then false
  else if startsWithStr (S "#") c then false
  else if isAssignmentShape c then false
  else
    let token := c.takeWhile (fun x => !pySpace x)
    startsWithStr (S "/") token || execWhitelistCmds.contains token

/-- The tail of `_RE_HEREDOC_OPEN` after `<<`: `\s*(?P<tag>[A-Za-z0-9_]+)\s*$`.
Returns the tag when the remaining text is optional whitespace, at least
one word character (the tag, greedily), then optional whitespace to the
end of the line. -/
def heredocTagOf (w : Str) : Option Str :=
  let w1 := w.dropWhile pySpace
  let tag := w1.takeWhile wordChar
  if !tag.isEmpty && (w1.drop tag.length).all pySpace then some tag else none

/-- `_RE_HEREDOC_OPEN.search(line)` for the pattern
`(?P<head>.+?)<<\s*(?P<tag>[A-Za-z0-9_]+)\s*$` (stig_runner.py:34):
find the earliest `<<` preceded by at least one character whose remainder
parses as the tag to end of line; yield (head before the `<<`, tag).
`pre` holds the reversed text already scanned. -/
def heredocSearchAux : Str → Str → Option (Str × Str)
  | _, [] => none
  | pre, c :: rest =>
    if pre.isEmpty then heredocSearchAux (c :: pre) rest
    else if c == '<' && rest.head? == some '<' then
      match heredocTagOf (rest.drop 1) with
      | some tag => some (pre.reverse, tag)
      | none => heredocSearchAux (c :: pre) rest
    else heredocSearchAux (c :: pre) rest

/-- `_RE_HEREDOC_OPEN.search(line)` (stig_runner.py:34). -/
def heredocSearch (line : Str) : Option (Str × Str) :=
  heredocSearchAux [] line

/-- `_RE_HEREDOC_TERM(tag).match(line)` for `^\s*TAG\s*$`
(stig_runner.py:35): the line is the tag surrounded by optional
whitespace.  The tag consists of word characters, so this is exactly
`line.strip() == tag`. -/
def isHeredocTerm (tag line : Str) : Bool :=
  pyStrip line == tag

/-- `_RE_PROMPT.match(line)` for `^\s*\$\s*(?P<cmd>.+?)\s*$`
(stig_runner.py:33): optional whitespace, a `$`, whitespace, then the
lazily-captured command with trailing whitespace stripped.  When
everything after the `$` is whitespace the engine backtracks the greedy
`\s*` by one character and captures that single whitespace character. -/
def promptMatch (line : Str) : Option Str :=
  match line.dropWhile pySpace with
  | '$' :: u =>
    if u.isEmpty then none
    else
      let v := u.dropWhile pySpace
      if v.isEmpty then some [u.getLastD ' ']
      else some (pyRStrip v)
  | _ => none

/-- Scanner state for the line loops of `extract_from_fences` and
`extract_from_free_text`: either scanning normally, or inside a heredoc
block collecting lines (head command, terminator tag, reversed collected
block lines). -/
inductive ScanMode where
  | normal : ScanMode
  | heredoc (head : Str) (tag : Str) (blockRev : List Str) : ScanMode

/-- Emit the command for a finished heredoc block: the block lines joined
with newlines and stripped, kept only when the head looks executable
(stig_runner.py:79-80). -/
def heredocEmit (head : Str) (blockRev : List Str) : List Str :=
  if looks_executable head then [pyStrip (joinNL blockRev.reverse)] else []

/-- The `while i < len(lines)` loop of `extract_from_fences`
(stig_runner.py:69-86), expressed as a line-at-a-time state machine:
a line opening a heredoc starts block collection that swallows following
lines up to and including the terminator line (or to the end of the
lines); any other line is prompt-stripped and kept when it looks
executable. -/
def scanFenceLines : List Str → ScanMode → List Str
  | [], .normal => []
  | [], .heredoc head _ blockRev => heredocEmit head blockRev
  | line :: rest, .normal =>
    match heredocSearch line with
    | some (headRaw, tag) =>
      scanFenceLines rest (.heredoc (pyRStrip headRaw) tag [line])
    | none =>
      let cand := pyStrip ((promptMatch line).getD line)
      (if looks_executable cand then [cand] else []) ++ scanFenceLines rest .normal
  | line :: rest, .heredoc head tag blockRev =>
    if isHeredocTerm tag line then
      heredocEmit head (line :: blockRev) ++ scanFenceLines rest .normal
    else
      scanFenceLines rest (.heredoc head tag (line :: blockRev))

/-- The `while i < len(lines)` loop of `extract_from_free_text`
(stig_runner.py:92-119): a prompt line is unwrapped first, and its
command text may itself open a heredoc (in which case the block starts
with the unwrapped text, stig_runner.py:100); a non-prompt line may open
a heredoc directly; any other line is skipped. -/
def scanFreeLines : List Str → ScanMode → List Str
  | [], .normal => []
  | [], .heredoc head _ blockRev => heredocEmit head blockRev
  | raw :: rest, .normal =>
    match promptMatch raw with
    | some cand =>
      match heredocSearch cand with
      | some (headRaw, tag) =>
        scanFreeLines rest (.heredoc (pyRStrip headRaw) tag [cand])
      | none =>
        (if looks_executable cand then [cand] else []) ++ scanFreeLines rest .normal
    | none =>
      match heredocSearch raw with
      | some (headRaw, tag) =>
        scanFreeLines rest (.heredoc (pyRStrip headRaw) tag [raw])
      | none => scanFreeLines rest .normal
  | line :: rest, .heredoc head tag blockRev =>
    if isHeredocTerm tag line then
      heredocEmit head (line :: blockRev) ++ scanFreeLines rest .normal
    else
      scanFreeLines rest (.heredoc head tag (line :: blockRev))

/-- `extract_from_free_text` (stig_runner.py:89-120). -/
def extract_from_free_text (text : Str) : List Str :=
  scanFreeLines (splitLines (join_backslash_lines text)) .normal

/-- The first option that is `some`, scanning left to right. -/
def firstSome {α : Type} : List (Option α) → Option α
  | [] => none
  | some a :: _ => some a
  | none :: rest => firstSome rest

/-- Indices of newline characters inside a whitespace run. -/
def nlPositions (ws : Str) : List Nat :=
  (List.range ws.length).filter (fun k => ws.get? k == some '\n')

/-- Length of the optional `(?:bash|sh|zsh)` language tag of `_RE_FENCE`
(stig_runner.py:32) at the start of `s` (the alternatives are mutually
exclusive by first character). -/
def fenceLangLen (s : Str) : Nat :=
  if startsWithStr (S "bash") s then 4
  else if startsWithStr (S "sh") s then 2
  else if startsWithStr (S "zsh") s then 3
  else 0

/-- One candidate body for `_RE_FENCE` once the greedy `\s*` has
backtracked so that its last consumed character is the newline at index
`k` of the whitespace run: the lazy body is everything up to the earliest
following `"\n```"` (at least one character), and the remainder after the
closing fence is returned for the next `finditer` round. -/
def fenceBodyFrom (s1 : Str) (k : Nat) : Option (Str × Str) :=
  let tail := s1.drop (k + 1)
  match findSub (S "\n```") (tail.drop 1) with
  | some q => some (tail.take (q + 1), tail.drop (q + 1 + 4))
  | none => none

/-- Attempt the `_RE_FENCE` match with the opening ```` ``` ```` already
consumed: read the optional language tag, then follow the regex engine's
backtracking of `\s*\n` — the newline positions of the whitespace run are
tried from the last one backwards. -/
def fenceTryAt (s : Str) : Option (Str × Str) :=
  firstSome
    ((nlPositions ((s.drop (fenceLangLen s)).takeWhile pySpace)).reverse.map
      (fenceBodyFrom (s.drop (fenceLangLen s))))

theorem firstSome_mem {α : Type} :
    ∀ (l : List (Option α)) (a : α), firstSome l = some a → some a ∈ l := by
  intro l
  induction l with
  | nil => intro a h; simp [firstSome] at h
  | cons x rest ih =>
    intro a h
    match x with
    | some b => simp [firstSome] at h; simp [h]
    | none => exact List.mem_cons_of_mem _ (ih a (by simpa [firstSome] using h))

theorem fenceBodyFrom_length_le (s1 : Str) (k : Nat) (b a : Str)
    (h : fenceBodyFrom s1 k = some (b, a)) : a.length ≤ s1.length := by
  simp only [fenceBodyFrom] at h
  cases hf : findSub (S "\n```") ((s1.drop (k + 1)).drop 1) with
  | none =>
    rw [hf] at h
    exact Option.noConfusion h
  | some q =>
    rw [hf] at h
    have ha : a = List.drop (k + 1 + (q + 1 + 4)) s1 := by
      simpa using (congrArg Prod.snd (Option.some.inj h)).symm
    subst ha
    simp [List.length_drop]

theorem fenceTryAt_length_le (s : Str) (b a : Str)
    (h : fenceTryAt s = some (b, a)) : a.length ≤ s.length := by
  unfold fenceTryAt at h
  have hm := firstSome_mem _ _ h
  rw [List.mem_map] at hm
  obtain ⟨k, _, hk⟩ := hm
  have := fenceBodyFrom_length_le (s.drop (fenceLangLen s)) k b a hk
  calc a.length ≤ (s.drop (fenceLangLen s)).length := this
    _ ≤ s.length := by simp [List.length_drop]

/-- `_RE_FENCE.finditer(text)` (stig_runner.py:32, 66): scan left to
right; at each ```` ``` ```` try the fence match, emitting the body and
resuming after the closing fence on success, otherwise advance one
character.  The fuel argument only drives structural recursion: every
step strictly shrinks the text and `fenceTryAt_length_le` shows a match
never lengthens it, so starting the fuel at the text length (see
`findFences`) the zero-fuel branch is unreachable. -/
def findFencesGo : Nat → Str → List Str
  | 0, _ => []
  | _ + 1, [] => []
  | fuel + 1, c :: rest =>
    if startsWithStr (S "```") (c :: rest) then
      match fenceTryAt (rest.drop 2) with
      | some (body, after) => body :: findFencesGo fuel after
      | none => findFencesGo fuel rest
    else findFencesGo fuel rest

/-- `_RE_FENCE.finditer(text)` (stig_runner.py:32, 66). -/
def findFences (s : Str) : List Str := findFencesGo s.length s

/-- `extract_from_fences` (stig_runner.py:64-87): every fence body is
continuation-joined and scanned line by line. -/
def extract_from_fences (text : Str) : List Str :=
  (findFences text).flatMap
    (fun body => scanFenceLines (splitLines (join_backslash_lines body)) .normal)

/-- The per-check extraction of `extract_rules_from_xccdf`
(stig_runner.py:145-146): fenced extraction first, free-text extraction
only when it found nothing. -/
def extractCommandBlocks (blob : Str) : List Str :=
  let cmds := extract_from_fences blob
  if cmds.isEmpty then extract_from_free_text blob else cmds

/-! ## Execution engine (`run_cmd`) and runner (`run_rules`) -/

/-- The argument record of the `subprocess.run` call made by `run_cmd`
(stig_runner.py:175-187).  `startNewSession` records whether a
process-group / session isolation parameter (`start_new_session`,
`preexec_fn=os.setsid`, or a `process_group` argument) is passed; the
source passes none, so the child runs in the caller's process group and
the library's timeout handling kills only the direct child. -/
structure SubprocessRunCall where
  argv : List Str
  textMode : Bool
  stdoutPiped : Bool
  stderrPiped : Bool
  envStartupFilesCleared : Bool
  timeoutSeconds : Nat
  startNewSession : Bool
  deriving DecidableEq

/-- `run_cmd` as a description of the `subprocess.run` invocation it
performs (stig_runner.py:175-187): `/bin/bash -lc` on the command block
(newline-terminated), text mode, both streams captured, `ENV` and
`BASH_ENV` emptied, the caller's timeout, and no process-group isolation. -/
def run_cmd_call (cmd : Str) (timeout : Nat) : SubprocessRunCall :=
  { argv := [S "/bin/bash", S "-lc",
             if cmd.getLast? == some '\n' then cmd else cmd ++ ['\n']]
    textMode := true
    stdoutPiped := true
    stderrPiped := true
    envStartupFilesCleared := true
    timeoutSeconds := timeout
    startNewSession := false }

/-- Outcome of one `run_cmd` call, as observed by `run_rules`:
the interpreter ran to completion, `subprocess.TimeoutExpired` was
raised, or another exception (e.g. a spawn failure such as
`FileNotFoundError` for a missing interpreter) was raised. -/
inductive ExecOutcome where
  | completed (rc : Int) (out err : Str) : ExecOutcome
  | timedOut : ExecOutcome
  | spawnError (msg : Str) : ExecOutcome

/-- The external behaviour of the execution engine: what happens when a
given command block is handed to `run_cmd`. -/
abbrev ExecBehavior := Str → ExecOutcome

/-- One evidence record appended to `ev` in `run_rules`
(stig_runner.py:310, 320). -/
structure Evidence where
  cmd : Str
  rc : Int
  stdout : Str
  stderr : Str
  deriving DecidableEq

/-- Exceptions that escape `run_rules` uncaught: any non-timeout
exception from `subprocess.run` (only `TimeoutExpired` is handled,
stig_runner.py:317), and the `IndexError` of `c.strip().split()[0]`
on a whitespace-only command (stig_runner.py:308). -/
inductive RunError where
  | spawn (msg : Str) : RunError
  | indexError : RunError
  deriving DecidableEq

/-- `c.strip().split()[0]` (stig_runner.py:308): the first
whitespace-delimited token of the stripped command, or `none` for the
`IndexError` case. -/
def headTokenOf (c : Str) : Option Str :=
  match pyStrip c with
  | [] => none
  | s => some (s.takeWhile (fun x => !pySpace x))

/-- The safety-gate test of stig_runner.py:309: a command may run when
unsafe mode is on, or its head token starts with `/`, or its head token
is on the whitelist. -/
def gatePasses (allowUnsafe : Bool) (head : Str) : Bool :=
  allowUnsafe || (startsWithStr (S "/") head || execWhitelistCmds.contains head)

/-- The synthetic evidence row recorded for a command blocked by safe
mode (stig_runner.py:310). -/
def blockedEvidence (c : Str) : Evidence :=
  { cmd := c, rc := 127, stdout := [], stderr := S "blocked by safe mode" }

/-- Whether safe mode blocks command `c` (stig_runner.py:308-309); a
whitespace-only command is not blocked but raises before the gate. -/
def blockedBySafeMode (c : Str) : Bool :=
  match headTokenOf c with
  | some h => !(startsWithStr (S "/") h || execWhitelistCmds.contains h)
  | none => false

/-- Result of the `for c in r["commands"]` loop of `run_rules`
(stig_runner.py:306-320): evidence rows in order, the increments to the
`executed` and `errors` counters, and the spy trace of commands actually
handed to the execution engine. -/
structure CmdBatch where
  evidence : List Evidence
  executedN : Nat
  errorsN : Nat
  engineCalls : List Str
  deriving DecidableEq

/-- The command loop of `run_rules` (stig_runner.py:306-320): each
command is head-tokenised (raising `IndexError` on a whitespace-only
command); a command failing the safety gate records the synthetic blocked
row and an error count without touching the engine; otherwise the engine
runs it, a `TimeoutExpired` is converted to the reserved row
`(124, "", "timeout")`, and any other exception propagates uncaught. -/
def runCommands (allowUnsafe : Bool) (beh : ExecBehavior) :
    List Str → Except RunError CmdBatch
  | [] => .ok ⟨[], 0, 0, []⟩
  | c :: cs =>
    match headTokenOf c with
    | none => .error .indexError
    | some h =>
      if !gatePasses allowUnsafe h then
        match runCommands allowUnsafe beh cs with
        | .error e => .error e
        | .ok b => .ok ⟨blockedEvidence c :: b.evidence, b.executedN, b.errorsN + 1, b.engineCalls⟩
      else
        match beh c with
        | .spawnError msg => .error (.spawn msg)
        | .timedOut =>
          match runCommands allowUnsafe beh cs with
          | .error e => .error e
          | .ok b => .ok ⟨⟨c, 124, [], S "timeout"⟩ :: b.evidence, b.executedN + 1, b.errorsN, c :: b.engineCalls⟩
        | .completed rc out err =>
          match runCommands allowUnsafe beh cs with
          | .error e => .error e
          | .ok b => .ok ⟨⟨c, rc, out, err⟩ :: b.evidence, b.executedN + 1, b.errorsN, c :: b.engineCalls⟩

/-! ## Advisory collaborator (`ai_judge` of stig_runner.py and
`ai_triage` of ai_audit_agent.py) -/

/-- A parsed JSON value (the result of Python `json.loads`). -/
inductive JVal where
  | null : JVal
  | bool (b : Bool) : JVal
  | num (n : Int) : JVal
  | str (s : Str) : JVal
  | arr (xs : List JVal) : JVal
  | obj (fields : List (Str × JVal)) : JVal

/-- Python `obj.get(key)` / `obj[key]` on a parsed JSON object. -/
def jGet : JVal → Str → Option JVal
  | .obj fields, k => (fields.find? (fun p => p.1 == k)).map (·.2)
  | _, _ => none

/-- The string under the `verdict` key of an advisory result, when it is
present and a string (the value compared by `render_report_html`,
stig_runner.py:229-232). -/
def aiVerdictStr (ai : JVal) : Option Str :=
  match jGet ai (S "verdict") with
  | some (.str s) => some s
  | _ => none

/-- The fixed fallback of `ai_judge` (stig_runner.py:221). -/
def aiJudgeFallback : JVal :=
  .obj [(S "verdict", .str (S "inconclusive")),
        (S "risk_note", .str (S "AI unavailable or non-JSON")),
        (S "tags", .arr [.str (S "ai-fallback")])]

/-- `ai_judge` (stig_runner.py:190-221).  The rule metadata and the
truncated exit code / stdout / stderr feed only the prompt sent to the
service; `resp` models the outcome of the whole
curl → `json.loads` → response-field → brace-extraction → `json.loads`
chain, with `none` for any failure along it (non-zero curl exit,
timeout, non-JSON text, …), in which case the `except` clause returns
the fixed fallback.  A successfully parsed value is returned as is: no
field of the execution result is inspected. -/
def ai_judge (_ruleId _title _severity : Str) (_rc : Int) (_out _err : Str)
    (resp : Option JVal) : JVal :=
  match resp with
  | some v => v
  | none => aiJudgeFallback

/-! ## `run_rules` (stig_runner.py:288-326) -/

/-- A rule as built by `extract_rules_from_xccdf` (stig_runner.py:149). -/
structure Rule where
  id : Str
  title : Str
  severity : Str
  commands : List Str
  manual : Bool

/-- One element of the `results` list of `run_rules`
(stig_runner.py:325). -/
structure RuleResult where
  id : Str
  title : Str
  severity : Str
  commands : List Str
  evidence : List Evidence
  ai : JVal

/-- The aggregate counters of `run_rules` (stig_runner.py:300). -/
structure Counts where
  executed : Nat
  manual : Nat
  errors : Nat
  deriving DecidableEq

/-- Lower-casing (`str.lower()`, ASCII). -/
def toLowerStr (s : Str) : Str := s.map Char.toLower

/-- The selection step of `run_rules` (stig_runner.py:289-297): by id
list, else by keyword in the lower-cased title, else all rules. -/
def selectRules (rules : List Rule) (ids : List Str) (keyword : Str) : List Rule :=
  if !ids.isEmpty then rules.filter (fun r => ids.contains r.id)
  else if !keyword.isEmpty then
    rules.filter (fun r => containsSub (toLowerStr keyword) (toLowerStr r.title))
  else rules

/-- The advisory behaviour over a run: the parsed response (see
`ai_judge`) for the k-th selected rule. -/
abbrev AiBehavior := Nat → Option JVal

/-- The whole output of `run_rules`. -/
structure RunOutput where
  results : List RuleResult
  counts : Counts
  engineCalls : List Str

/-- The default for `last = ev[-1] if ev else {...}` (stig_runner.py:323). -/
def emptyEvidence : Evidence := { cmd := [], rc := 0, stdout := [], stderr := [] }

/-- The `for r in selected` loop of `run_rules` (stig_runner.py:301-325):
rules with no commands bump the manual counter; the command loop is
`runCommands`; the advisory verdict is computed from the last evidence
row (or an all-empty one) and attached to the result row.  Any exception
from the command loop propagates and aborts the run. -/
def runRulesGo (allowUnsafe : Bool) (beh : ExecBehavior) (ai : AiBehavior) :
    Nat → List Rule → Except RunError RunOutput
  | _, [] => .ok ⟨[], ⟨0, 0, 0⟩, []⟩
  | k, r :: rs =>
    match runCommands allowUnsafe beh r.commands with
    | .error e => .error e
    | .ok b =>
      let last := b.evidence.getLastD emptyEvidence
      let verdict := ai_judge r.id r.title r.severity last.rc last.stdout last.stderr (ai k)
      match runRulesGo allowUnsafe beh ai (k + 1) rs with
      | .error e => .error e
      | .ok out =>
        .ok ⟨⟨r.id, r.title, r.severity, r.commands, b.evidence, verdict⟩ :: out.results,
             ⟨b.executedN + out.counts.executed,
              (if r.commands.isEmpty then 1 else 0) + out.counts.manual,
              b.errorsN + out.counts.errors⟩,
             b.engineCalls ++ out.engineCalls⟩

/-- `run_rules` (stig_runner.py:288-326). -/
def run_rules (rules : List Rule) (ids : List Str) (keyword : Str)
    (allowUnsafe : Bool) (beh : ExecBehavior) (ai : AiBehavior) :
    Except RunError RunOutput :=
  runRulesGo allowUnsafe beh ai 0 (selectRules rules ids keyword)

/-! ## Report tallies (`render_report_html`, stig_runner.py:227-243) -/

/-- Whether a result row's advisory verdict equals the given string
(Python `r["ai"]["verdict"] == s`; rows produced by this pipeline always
carry a `verdict` field, and a missing or non-string value is modelled
as a non-match). -/
def verdictIs (row : RuleResult) (s : Str) : Bool :=
  match aiVerdictStr row.ai with
  | some t => t == s
  | none => false

/-- The dashboard counters of `render_report_html`
(stig_runner.py:228-243): total, Pass, Fail, Needs review, Inconclusive
— all derived from the advisory verdict string alone. -/
def renderCounts (rows : List RuleResult) : Nat × Nat × Nat × Nat × Nat :=
  (rows.length,
   rows.countP (fun r => verdictIs r (S "pass")),
   rows.countP (fun r => verdictIs r (S "fail")),
   rows.countP (fun r => verdictIs r (S "needs_review")),
   rows.countP (fun r => verdictIs r (S "inconclusive")))

/-! ## `ai_triage` (ai_audit_agent.py:59-73) -/

/-- The four fields `ai_triage` requires in a response
(ai_audit_agent.py:66). -/
def requiredTriageFields : List Str :=
  [S "verdict", S "rationale", S "tags", S "confidence"]

/-- Python `k in obj` as used by the field check
(ai_audit_agent.py:66): key membership for a dict, element equality for
a list, substring for a string; any other operand type raises
`TypeError`, modelled as `none` (the surrounding `except` turns it into
a parse failure). -/
def pyFieldIn (k : Str) : JVal → Option Bool
  | .obj fields => some (fields.any (fun p => p.1 == k))
  | .arr xs => some (xs.any (fun x => match x with | .str s => s == k | _ => false))
  | .str s => some (containsSub k s)
  | _ => none

/-- `all(k in obj for k in ("verdict","rationale","tags","confidence"))`
(ai_audit_agent.py:66), `none` when the membership test raises. -/
def hasRequiredFields (v : JVal) : Option Bool :=
  match v with
  | .obj _ => some (requiredTriageFields.all (fun k => (pyFieldIn k v).getD false))
  | .arr _ => some (requiredTriageFields.all (fun k => (pyFieldIn k v).getD false))
  | .str _ => some (requiredTriageFields.all (fun k => (pyFieldIn k v).getD false))
  | _ => none

/-- One `try: obj = json.loads(body); if all(...): return obj` round of
`ai_triage` (ai_audit_agent.py:64-67): the argument is the `json.loads`
outcome of the service's response body (`none` for non-JSON, which
includes the `__LLM_ERROR__ ...` text `_ollama` substitutes on any
network or timeout fault); the round yields a value only for parsed JSON
passing the field check without raising. -/
def triageAccept (r : Option JVal) : Option JVal :=
  match r with
  | some v =>
    match hasRequiredFields v with
    | some true => some v
    | _ => none
  | none => none

/-- The system prompt of `ai_triage` (ai_audit_agent.py:60-62). -/
def triageSysPrompt : Str :=
  S "You are a macOS blue-team auditor. Given CATEGORY and EVIDENCE (log/config snippets), return compact JSON only: verdict,rationale,tags,confidence. verdict ∈ [\"Benign Likely FP\",\"Risk Needs Review\",\"Fail Confirmed\",\"Inconclusive\"]."

/-- The first prompt sent by `ai_triage` (ai_audit_agent.py:63). -/
def triagePrompt1 (category evidence : Str) : Str :=
  S "<<SYS>>" ++ triageSysPrompt ++ S "<</SYS>>\nCATEGORY:\n" ++ category
    ++ S "\nEVIDENCE:\n" ++ evidence ++ S "\nRESPONSE:"

/-- The stripped retry prompt sent by `ai_triage`
(ai_audit_agent.py:68). -/
def triagePrompt2 (category evidence : Str) : Str :=
  S "JSON only with verdict,rationale,tags,confidence\n" ++ S "CATEGORY:\n"
    ++ category ++ S "\nEVIDENCE:\n" ++ evidence ++ S "\nRESPONSE:"

/-- The fixed fallback opinion of `ai_triage` (ai_audit_agent.py:73). -/
def triageFallback : JVal :=
  .obj [(S "verdict", .str (S "Inconclusive")),
        (S "rationale", .str (S "Model returned non JSON.")),
        (S "tags", .arr []),
        (S "confidence", .str (S "low"))]

/-- Everything observable about one `ai_triage` call: the returned
opinion and the prompts issued to the service, in order (their number is
the number of service calls). -/
structure TriageRun where
  result : JVal
  promptsIssued : List Str

/-- `ai_triage` (ai_audit_agent.py:59-73): call the service once; if the
response round fails, retry exactly once with the stripped prompt; if
that fails too, return the fixed fallback.  `o k` is the `json.loads`
outcome of the k-th service response. -/
def ai_triage (category evidence : Str) (o : Nat → Option JVal) : TriageRun :=
  match triageAccept (o 0) with
  | some v => ⟨v, [triagePrompt1 category evidence]⟩
  | none =>
    match triageAccept (o 1) with
    | some v => ⟨v, [triagePrompt1 category evidence, triagePrompt2 category evidence]⟩
    | none => ⟨triageFallback, [triagePrompt1 category evidence, triagePrompt2 category evidence]⟩

/-! ## Spec-side definitions used to compare the code against the
specification's wording -/

/-- Modelled from the spec: the "fixed deny-pattern set (recursive
forced deletion, disabling protective services, removing persistent
daemons, bulk policy writes)" that §4.2 says rejects a command
unconditionally.  No such pattern set exists anywhere in the source;
this predicate renders the spec's four families so that the claim can be
stated and tested against `run_rules`. -/
def denyPatternSpec (c : Str) : Bool :=
  containsSub (S "rm -rf") c ||
  containsSub (S "csrutil disable") c ||
  containsSub (S "spctl --master-disable") c ||
  containsSub (S "launchctl remove") c ||
  containsSub (S "launchctl bootout") c ||
  containsSub (S "pwpolicy -setglobalpolicy") c

/-- Modelled from the spec: the Result Classifier of §4.4, a pure
function of the exit code and output — exit 0 with an affirmative
lexical match ("pass"/"enabled"/"ok") is Pass, exit 0 without one is
Fail, any other non-zero exit is Error.  No such classifier exists in
the source; the verdict reported by `run_rules` is the advisory
service's output (`ai_judge`). -/
def resultClassifierSpec (rc : Int) (out : Str) : Str :=
  if rc = 0 then
    if containsSub (S "pass") out || containsSub (S "enabled") out || containsSub (S "ok") out
    then S "Pass" else S "Fail"
  else S "Error"

/-- Modelled from the spec: §4.3's requirement that on timeout the
engine "sends a forceful termination to the whole process group (not
just the direct child)".  Doing so requires the child to be started in
its own process group/session (otherwise a group-wide signal would hit
the runner itself), so a `run_cmd` invocation can satisfy the clause
only if its `subprocess.run` call isolates the process group. -/
def specTimeoutGroupKill (call : SubprocessRunCall) : Prop :=
  call.startNewSession = true

/-- The per-line acceptance function of `extract_from_free_text` for
lines that do not open a heredoc: a prompt line whose unwrapped command
looks executable is kept, every other line is skipped
(stig_runner.py:94-108, 119). -/
def freeLineCandidate (l : Str) : Option Str :=
  match promptMatch l with
  | some cand => if looks_executable cand then some cand else none
  | none => none

/-- Whether a line makes `extract_from_free_text` enter heredoc-block
collection: either its unwrapped prompt command or the raw line matches
`_RE_HEREDOC_OPEN` (stig_runner.py:97, 109). -/
def lineOpensHeredoc (l : Str) : Bool :=
  match promptMatch l with
  | some cand => (heredocSearch cand).isSome
  | none => (heredocSearch l).isSome

/-- The spec's example advisory response
`{"label":"Fail Confirmed","rationale":"x","tags":[],"confidence":"low"}`
(with the label field under the code's `verdict` key), used as a
concrete well-formed response. -/
def triageGoodResponse : JVal :=
  .obj [(S "verdict", .str (S "Fail Confirmed")),
        (S "rationale", .str (S "x")),
        (S "tags", .arr []),
        (S "confidence", .str (S "low"))]

/-- A concrete rule whose single command is neither an absolute path nor
on the allow-list, used to exercise the safe-mode gate. -/
def safeModeRule : Rule :=
  ⟨S "R1", S "t", S "high", [S "evilbinary --x"], false⟩

/-- The output `run_rules` computes for `safeModeRule` in safe mode: the
command is blocked, the synthetic row recorded, one error counted, and
the engine never called. -/
def safeModeOut : RunOutput :=
  ⟨[⟨S "R1", S "t", S "high", [S "evilbinary --x"],
     [blockedEvidence (S "evilbinary --x")], aiJudgeFallback⟩],
   ⟨0, 0, 1⟩, []⟩

/-! ## Helper lemmas -/

theorem startsWithStr_append (p s t : Str) (h : startsWithStr p s = true) :
    startsWithStr p (s ++ t) = true := by
  induction p generalizing s with
  | nil => simp [startsWithStr]
  | cons a ps ih =>
    cases s with
    | nil => simp [startsWithStr] at h
    | cons c cs =>
      simp [startsWithStr] at h ⊢
      exact ⟨h.1, ih cs h.2⟩

theorem scanFreeLines_heredoc_all (head tag : Str) :
    ∀ (lines : List Str) (blockRev : List Str),
      (∀ l ∈ lines, isHeredocTerm tag l = false) →
      scanFreeLines lines (.heredoc head tag blockRev)
        = heredocEmit head (lines.reverse ++ blockRev) := by
  intro lines
  induction lines with
  | nil => intro blockRev _; simp [scanFreeLines]
  | cons l rest ih =>
    intro blockRev h
    have hl : isHeredocTerm tag l = false := h l (List.mem_cons_self l rest)
    have hrest : ∀ x ∈ rest, isHeredocTerm tag x = false :=
      fun x hx => h x (List.mem_cons_of_mem l hx)
    simp only [scanFreeLines, hl, Bool.false_eq_true, if_false]
    rw [ih (l :: blockRev) hrest]
    simp

theorem scanFenceLines_heredoc_all (head tag : Str) :
    ∀ (lines : List Str) (blockRev : List Str),
      (∀ l ∈ lines, isHeredocTerm tag l = false) →
      scanFenceLines lines (.heredoc head tag blockRev)
        = heredocEmit head (lines.reverse ++ blockRev) := by
  intro lines
  induction lines with
  | nil => intro blockRev _; simp [scanFenceLines]
  | cons l rest ih =>
    intro blockRev h
    have hl : isHeredocTerm tag l = false := h l (List.mem_cons_self l rest)
    have hrest : ∀ x ∈ rest, isHeredocTerm tag x = false :=
      fun x hx => h x (List.mem_cons_of_mem l hx)
    simp only [scanFenceLines, hl, Bool.false_eq_true, if_false]
    rw [ih (l :: blockRev) hrest]
    simp

theorem scanFreeLines_no_heredoc :
    ∀ (lines : List Str),
      (∀ l ∈ lines, lineOpensHeredoc l = false) →
      scanFreeLines lines .normal = lines.filterMap freeLineCandidate := by
  intro lines
  induction lines with
  | nil => intro _; simp [scanFreeLines]
  | cons raw rest ih =>
    intro h
    have hraw : lineOpensHeredoc raw = false := h raw (List.mem_cons_self raw rest)
    have hrest : ∀ x ∈ rest, lineOpensHeredoc x = false :=
      fun x hx => h x (List.mem_cons_of_mem raw hx)
    cases hp : promptMatch raw with
    | some cand =>
      have hs : heredocSearch cand = none := by
        have := hraw
        simp only [lineOpensHeredoc, hp] at this
        exact Option.not_isSome_iff_eq_none.mp (by simp [this])
      simp only [scanFreeLines, hp, hs, List.filterMap_cons, freeLineCandidate]
      cases hle : looks_executable cand <;> simp [hle, ih hrest]
    | none =>
      have hs : heredocSearch raw = none := by
        have := hraw
        simp only [lineOpensHeredoc, hp] at this
        exact Option.not_isSome_iff_eq_none.mp (by simp [this])
      simp only [scanFreeLines, hp, hs, List.filterMap_cons, freeLineCandidate]
      exact ih hrest

theorem run_rules_single_completed (r : Rule) (c h : Str) (rc : Int) (out err : Str)
    (ai : AiBehavior) (hc : r.commands = [c]) (hh : headTokenOf c = some h)
    (hg : gatePasses false h = true) :
    run_rules [r] [] [] false (fun _ => .completed rc out err) ai
      = .ok ⟨[⟨r.id, r.title, r.severity, r.commands, [⟨c, rc, out, err⟩],
               ai_judge r.id r.title r.severity rc out err (ai 0)⟩],
             ⟨1, 0, 0⟩, [c]⟩ := by
  simp [run_rules, selectRules, runRulesGo, runCommands, hc, hh, hg, List.getLastD]

theorem run_rules_single_timedOut (r : Rule) (c h : Str)
    (ai : AiBehavior) (hc : r.commands = [c]) (hh : headTokenOf c = some h)
    (hg : gatePasses false h = true) :
    run_rules [r] [] [] false (fun _ => .timedOut) ai
      = .ok ⟨[⟨r.id, r.title, r.severity, r.commands, [⟨c, 124, [], S "timeout"⟩],
               ai_judge r.id r.title r.severity 124 [] (S "timeout") (ai 0)⟩],
             ⟨1, 0, 0⟩, [c]⟩ := by
  simp [run_rules, selectRules, runRulesGo, runCommands, hc, hh, hg, List.getLastD]

theorem runCommands_unsafe_all (beh : ExecBehavior) :
    ∀ (cmds : List Str),
      (∀ c ∈ cmds, headTokenOf c ≠ none) →
      (∀ c ∈ cmds, ∀ msg, beh c ≠ .spawnError msg) →
      ∃ b, runCommands true beh cmds = .ok b ∧ b.engineCalls = cmds ∧ b.errorsN = 0 := by
  intro cmds
  induction cmds with
  | nil => intro _ _; exact ⟨⟨[], 0, 0, []⟩, rfl, rfl, rfl⟩
  | cons c cs ih =>
    intro hhead hspawn
    obtain ⟨b, hb, hcalls, herr⟩ :=
      ih (fun x hx => hhead x (List.mem_cons_of_mem c hx))
         (fun x hx => hspawn x (List.mem_cons_of_mem c hx))
    have hc : headTokenOf c ≠ none := hhead c (List.mem_cons_self c cs)
    obtain ⟨h, hh⟩ : ∃ h, headTokenOf c = some h := by
      cases hht : headTokenOf c with
      | none => exact absurd hht hc
      | some h => exact ⟨h, rfl⟩
    cases hbeh : beh c with
    | spawnError msg => exact absurd hbeh (hspawn c (List.mem_cons_self c cs) msg)
    | timedOut =>
      refine ⟨⟨⟨c, 124, [], S "timeout"⟩ :: b.evidence, b.executedN + 1, b.errorsN, c :: b.engineCalls⟩, ?_, ?_, ?_⟩
      · simp [runCommands, hh, gatePasses, hbeh, hb]
      · simp [hcalls]
      · simp [herr]
    | completed rc out err =>
      refine ⟨⟨⟨c, rc, out, err⟩ :: b.evidence, b.executedN + 1, b.errorsN, c :: b.engineCalls⟩, ?_, ?_, ?_⟩
      · simp [runCommands, hh, gatePasses, hbeh, hb]
      · simp [hcalls]
      · simp [herr]

theorem runCommands_safe_spec (beh : ExecBehavior) :
    ∀ (cmds : List Str) (b : CmdBatch),
      runCommands false beh cmds = .ok b →
      (∀ c ∈ b.engineCalls, blockedBySafeMode c = false) ∧
      (∀ c ∈ cmds, blockedBySafeMode c = true → blockedEvidence c ∈ b.evidence) ∧
      b.errorsN = cmds.countP blockedBySafeMode := by
  intro cmds
  induction cmds with
  | nil =>
    intro b hb
    simp [runCommands] at hb
    subst hb
    simp
  | cons c cs ih =>
    intro b hb
    cases hh : headTokenOf c with
    | none =>
      have hstep : runCommands false beh (c :: cs) = .error .indexError := by
        simp [runCommands, hh]
      rw [hstep] at hb
      exact Except.noConfusion hb
    | some h =>
      have hblock : blockedBySafeMode c = !gatePasses false h := by
        simp [blockedBySafeMode, hh, gatePasses]
      cases hg : gatePasses false h with
      | false =>
        cases hr : runCommands false beh cs with
        | error e =>
          have hstep : runCommands false beh (c :: cs) = .error e := by
            simp [runCommands, hh, hg, hr]
          rw [hstep] at hb
          exact Except.noConfusion hb
        | ok b' =>
          have hstep : runCommands false beh (c :: cs)
              = .ok ⟨blockedEvidence c :: b'.evidence, b'.executedN, b'.errorsN + 1, b'.engineCalls⟩ := by
            simp [runCommands, hh, hg, hr]
          rw [hstep] at hb
          obtain ⟨hcalls, hev, herr⟩ := ih b' hr
          have hbv : b = ⟨blockedEvidence c :: b'.evidence, b'.executedN, b'.errorsN + 1, b'.engineCalls⟩ :=
            (Except.ok.inj hb).symm
          subst hbv
          refine ⟨hcalls, ?_, ?_⟩
          · intro x hx hbx
            rcases List.mem_cons.mp hx with hx1 | hx2
            · subst hx1; exact List.mem_cons_self _ _
            · exact List.mem_cons_of_mem _ (hev x hx2 hbx)
          · simp [List.countP_cons, hblock, hg, herr]
      | true =>
        cases hbeh : beh c with
        | spawnError msg =>
          have hstep : runCommands false beh (c :: cs) = .error (.spawn msg) := by
            simp [runCommands, hh, hg, hbeh]
          rw [hstep] at hb
          exact Except.noConfusion hb
        | timedOut =>
          cases hr : runCommands false beh cs with
          | error e =>
            have hstep : runCommands false beh (c :: cs) = .error e := by
              simp [runCommands, hh, hg, hbeh, hr]
            rw [hstep] at hb
            exact Except.noConfusion hb
          | ok b' =>
            have hstep : runCommands false beh (c :: cs)
                = .ok ⟨⟨c, 124, [], S "timeout"⟩ :: b'.evidence, b'.executedN + 1, b'.errorsN, c :: b'.engineCalls⟩ := by
              simp [runCommands, hh, hg, hbeh, hr]
            rw [hstep] at hb
            obtain ⟨hcalls, hev, herr⟩ := ih b' hr
            have hbv : b = ⟨⟨c, 124, [], S "timeout"⟩ :: b'.evidence, b'.executedN + 1, b'.errorsN, c :: b'.engineCalls⟩ :=
              (Except.ok.inj hb).symm
            subst hbv
            refine ⟨?_, ?_, ?_⟩
            · intro x hx
              rcases List.mem_cons.mp hx with hx1 | hx2
              · subst hx1; simp [hblock, hg]
              · exact hcalls x hx2
            · intro x hx hbx
              rcases List.mem_cons.mp hx with hx1 | hx2
              · subst hx1; rw [hblock, hg] at hbx; simp at hbx
              · exact List.mem_cons_of_mem _ (hev x hx2 hbx)
            · simp [List.countP_cons, hblock, hg, herr]
        | completed rc out err =>
          cases hr : runCommands false beh cs with
          | error e =>
            have hstep : runCommands false beh (c :: cs) = .error e := by
              simp [runCommands, hh, hg, hbeh, hr]
            rw [hstep] at hb
            exact Except.noConfusion hb
          | ok b' =>
            have hstep : runCommands false beh (c :: cs)
                = .ok ⟨⟨c, rc, out, err⟩ :: b'.evidence, b'.executedN + 1, b'.errorsN, c :: b'.engineCalls⟩ := by
              simp [runCommands, hh, hg, hbeh, hr]
            rw [hstep] at hb
            obtain ⟨hcalls, hev, herr⟩ := ih b' hr
            have hbv : b = ⟨⟨c, rc, out, err⟩ :: b'.evidence, b'.executedN + 1, b'.errorsN, c :: b'.engineCalls⟩ :=
              (Except.ok.inj hb).symm
            subst hbv
            refine ⟨?_, ?_, ?_⟩
            · intro x hx
              rcases List.mem_cons.mp hx with hx1 | hx2
              · subst hx1; simp [hblock, hg]
              · exact hcalls x hx2
            · intro x hx hbx
              rcases List.mem_cons.mp hx with hx1 | hx2
              · subst hx1; rw [hblock, hg] at hbx; simp at hbx
              · exact List.mem_cons_of_mem _ (hev x hx2 hbx)
            · simp [List.countP_cons, hblock, hg, herr]

theorem runRulesGo_safe_spec (beh : ExecBehavior) (ai : AiBehavior) :
    ∀ (rules : List Rule) (k : Nat) (out : RunOutput),
      runRulesGo false beh ai k rules = .ok out →
      (∀ c ∈ out.engineCalls, blockedBySafeMode c = false) ∧
      (∀ row ∈ out.results, ∀ c ∈ row.commands,
        blockedBySafeMode c = true → blockedEvidence c ∈ row.evidence) ∧
      out.counts.errors
        = (out.results.map (fun row => row.commands.countP blockedBySafeMode)).sum := by
  intro rules
  induction rules with
  | nil =>
    intro k out hout
    simp [runRulesGo] at hout
    subst hout
    simp
  | cons r rs ih =>
    intro k out hout
    cases hr : runCommands false beh r.commands with
    | error e =>
      have hstep : runRulesGo false beh ai k (r :: rs) = .error e := by
        simp [runRulesGo, hr]
      rw [hstep] at hout
      exact Except.noConfusion hout
    | ok b =>
      cases hrec : runRulesGo false beh ai (k + 1) rs with
      | error e =>
        have hstep : runRulesGo false beh ai k (r :: rs) = .error e := by
          simp [runRulesGo, hr, hrec]
        rw [hstep] at hout
        exact Except.noConfusion hout
      | ok o =>
        have hstep : runRulesGo false beh ai k (r :: rs)
            = .ok ⟨⟨r.id, r.title, r.severity, r.commands, b.evidence,
                    ai_judge r.id r.title r.severity
                      (b.evidence.getLastD emptyEvidence).rc
                      (b.evidence.getLastD emptyEvidence).stdout
                      (b.evidence.getLastD emptyEvidence).stderr (ai k)⟩ :: o.results,
                   ⟨b.executedN + o.counts.executed,
                    (if r.commands.isEmpty then 1 else 0) + o.counts.manual,
                    b.errorsN + o.counts.errors⟩,
                   b.engineCalls ++ o.engineCalls⟩ := by
          simp [runRulesGo, hr, hrec]
        rw [hstep] at hout
        obtain ⟨hcalls, hev, herr⟩ := runCommands_safe_spec beh r.commands b hr
        obtain ⟨hcalls', hrows', herr'⟩ := ih (k + 1) o hrec
        have hov := (Except.ok.inj hout).symm
        subst hov
        refine ⟨?_, ?_, ?_⟩
        · intro c hc
          rcases List.mem_append.mp hc with h1 | h2
          · exact hcalls c h1
          · exact hcalls' c h2
        · intro row hrow c hc hbc
          rcases List.mem_cons.mp hrow with h1 | h2
          · subst h1; exact hev c hc hbc
          · exact hrows' row h2 c hc hbc
        · simp [herr, herr']

/-! ## Claim theorems -/

/-- C2: in Safe mode (`allow_unsafe` false), every command whose leading
token neither starts with `/` nor is on the allow-list never reaches the
execution engine (the spy trace contains only gate-passing commands),
gets the synthetic blocked evidence row `(127, "", "blocked by safe
mode")` recorded instead, and is counted in the `errors` counter. -/
theorem safe_mode_blocks_unlisted_commands (rules : List Rule) (ids : List Str)
    (keyword : Str) (beh : ExecBehavior) (ai : AiBehavior) (out : RunOutput)
    (h : run_rules rules ids keyword false beh ai = .ok out) :
    (∀ c ∈ out.engineCalls, blockedBySafeMode c = false) ∧
    (∀ row ∈ out.results, ∀ c ∈ row.commands,
      blockedBySafeMode c = true → blockedEvidence c ∈ row.evidence) ∧
    out.counts.errors
      = (out.results.map (fun row => row.commands.countP blockedBySafeMode)).sum :=
  runRulesGo_safe_spec beh ai (selectRules rules ids keyword) 0 out h

/-- Witness for C2: the non-allow-listed command of `safeModeRule` is
blocked, so the run records exactly one error, matching the per-row
blocked counts. -/
theorem safe_mode_blocks_unlisted_commands_witness :
    safeModeOut.counts.errors
      = (safeModeOut.results.map (fun row => row.commands.countP blockedBySafeMode)).sum :=
  (safe_mode_blocks_unlisted_commands [safeModeRule] [] []
    (fun _ => .completed 0 [] []) (fun _ => none) safeModeOut rfl).2.2

/-- C5 counterexample: `run_cmd` passes no process-group isolation
parameter to `subprocess.run` (no `start_new_session`, no
`preexec_fn=os.setsid`), so the claimed forceful termination of the
command's whole process group on timeout cannot and does not happen:
the library's timeout handling kills only the direct child. -/
theorem run_cmd_no_process_group_isolation :
    ¬ specTimeoutGroupKill (run_cmd_call (S "sleep 99") 12) := by
  simp [specTimeoutGroupKill, run_cmd_call]

/-- C5 (amended): when a gate-passing command's execution raises
`TimeoutExpired`, `run_rules` records the reserved exit code 124 with
stderr "timeout" and counts it as executed — but the child is spawned in
the caller's process group (`start_new_session` not set), so no
group-wide termination is sent; only the direct child is killed. -/
theorem timeout_reports_reserved_code (r : Rule) (c h : Str) (t : Nat) (ai : AiBehavior)
    (hc : r.commands = [c]) (hh : headTokenOf c = some h)
    (hg : gatePasses false h = true) :
    run_rules [r] [] [] false (fun _ => .timedOut) ai
      = .ok ⟨[⟨r.id, r.title, r.severity, r.commands, [⟨c, 124, [], S "timeout"⟩],
               ai_judge r.id r.title r.severity 124 [] (S "timeout") (ai 0)⟩],
             ⟨1, 0, 0⟩, [c]⟩ ∧
    (run_cmd_call c t).startNewSession = false :=
  ⟨run_rules_single_timedOut r c h ai hc hh hg, rfl⟩

/-- Witness for C5 (amended), at a concrete whitelisted command. -/
theorem timeout_reports_reserved_code_witness :
    run_rules [⟨S "R1", S "t", S "high", [S "/usr/bin/profiles -P"], false⟩] [] [] false
        (fun _ => .timedOut) (fun _ => none)
      = .ok ⟨[⟨S "R1", S "t", S "high", [S "/usr/bin/profiles -P"],
               [⟨S "/usr/bin/profiles -P", 124, [], S "timeout"⟩], aiJudgeFallback⟩],
             ⟨1, 0, 0⟩, [S "/usr/bin/profiles -P"]⟩ ∧
    (run_cmd_call (S "/usr/bin/profiles -P") 12).startNewSession = false :=
  timeout_reports_reserved_code ⟨S "R1", S "t", S "high", [S "/usr/bin/profiles -P"], false⟩
    (S "/usr/bin/profiles -P") (S "/usr/bin/profiles") 12 (fun _ => none)
    rfl (by decide) (by decide)

/-- C6 counterexample: a spawn failure (any exception other than
`TimeoutExpired` from `subprocess.run`, e.g. a missing interpreter) is
not caught by `run_rules`: the run aborts with the uncaught exception
instead of recording an `ExecutionResult` with a reserved spawn-error
code. -/
theorem spawn_failure_uncaught :
    run_rules [⟨S "R1", S "t", S "high", [S "/usr/bin/true"], false⟩] [] [] true
        (fun _ => .spawnError (S "spawn failed")) (fun _ => none)
      = .error (.spawn (S "spawn failed")) := rfl

/-- C6 (amended): only `TimeoutExpired` is handled
(stig_runner.py:317); any other exception raised while executing a
gate-passing command propagates out of `run_rules` uncaught, aborting
the whole run with no evidence row for the command. -/
theorem only_timeout_is_caught (r : Rule) (c h msg : Str) (au : Bool) (ai : AiBehavior)
    (hc : r.commands = [c]) (hh : headTokenOf c = some h)
    (hg : gatePasses au h = true) :
    run_rules [r] [] [] au (fun _ => .spawnError msg) ai = .error (.spawn msg) := by
  simp [run_rules, selectRules, runRulesGo, runCommands, hc, hh, hg]

/-- Witness for C6 (amended), at a concrete command and failure text. -/
theorem only_timeout_is_caught_witness :
    run_rules [⟨S "R1", S "t", S "high", [S "/usr/bin/true"], false⟩] [] [] false
        (fun _ => .spawnError (S "No such file or directory")) (fun _ => none)
      = .error (.spawn (S "No such file or directory")) :=
  only_timeout_is_caught ⟨S "R1", S "t", S "high", [S "/usr/bin/true"], false⟩
    (S "/usr/bin/true") (S "/usr/bin/true") (S "No such file or directory") false
    (fun _ => none) rfl (by decide) (by decide)

/-- C7 counterexample: a rule with no extracted commands is still sent
through the advisory step on an all-empty evidence record, and its
reported verdict is the advisory output — here the fallback
"inconclusive" — not a distinct Manual verdict; the engine is indeed
never invoked. -/
theorem empty_rule_verdict_not_manual :
    (run_rules [⟨S "R1", S "t", S "high", [], true⟩] [] [] false
        (fun _ => .completed 0 [] []) (fun _ => none)).map
      (fun o => (o.results.map (fun w => aiVerdictStr w.ai), o.engineCalls))
      = .ok ([some (S "inconclusive")], []) ∧
    some (S "inconclusive") ≠ some (S "Manual") ∧
    some (S "inconclusive") ≠ some (S "manual") :=
  ⟨rfl, by decide, by decide⟩

/-- C7 (amended): a rule whose command list is empty increments the
`manual` counter and the engine is invoked zero times for it (and an
empty guidance blob indeed extracts no commands), but the rule's result
row still carries the advisory verdict computed on an all-empty evidence
record, not a Manual verdict. -/
theorem empty_rule_manual_counter_no_engine (r : Rule) (beh : ExecBehavior)
    (ai : AiBehavior) (hc : r.commands = []) :
    run_rules [r] [] [] false beh ai
      = .ok ⟨[⟨r.id, r.title, r.severity, r.commands, [],
               ai_judge r.id r.title r.severity 0 [] [] (ai 0)⟩], ⟨0, 1, 0⟩, []⟩ ∧
    extractCommandBlocks [] = [] := by
  constructor
  · simp [run_rules, selectRules, runRulesGo, runCommands, hc, emptyEvidence, List.getLastD]
  · rfl

/-- Witness for C7 (amended), at a concrete command-free rule. -/
theorem empty_rule_manual_counter_no_engine_witness :
    run_rules [⟨S "R2", S "u", S "low", [], true⟩] [] [] false
        (fun _ => .completed 0 [] []) (fun _ => some (.str (S "x")))
      = .ok ⟨[⟨S "R2", S "u", S "low", [], [], .str (S "x")⟩], ⟨0, 1, 0⟩, []⟩ ∧
    extractCommandBlocks [] = [] :=
  empty_rule_manual_counter_no_engine ⟨S "R2", S "u", S "low", [], true⟩
    (fun _ => .completed 0 [] []) (fun _ => some (.str (S "x"))) rfl

/-- C10: the extraction scanners are total functions (they terminate and
return a list on every input by construction), and when a heredoc opener
line's terminator tag never occurs among the following lines, the scan
consumes all remaining lines as the heredoc body and emits at most one
command for the block — exactly the joined, stripped block when the head
looks executable, nothing otherwise — in both the fence-body scanner and
the free-text scanner. -/
theorem unterminated_heredoc_consumes_rest (l0 : Str) (rest : List Str)
    (head tag : Str)
    (h1 : heredocSearch l0 = some (head, tag))
    (h2 : promptMatch l0 = none)
    (h3 : ∀ l ∈ rest, isHeredocTerm tag l = false) :
    scanFreeLines (l0 :: rest) .normal
      = (if looks_executable (pyRStrip head) then [pyStrip (joinNL (l0 :: rest))] else []) ∧
    scanFenceLines (l0 :: rest) .normal
      = (if looks_executable (pyRStrip head) then [pyStrip (joinNL (l0 :: rest))] else []) ∧
    (scanFreeLines (l0 :: rest) .normal).length ≤ 1 ∧
    (scanFenceLines (l0 :: rest) .normal).length ≤ 1 := by
  have hemit : heredocEmit (pyRStrip head) (rest.reverse ++ [l0])
      = (if looks_executable (pyRStrip head) then [pyStrip (joinNL (l0 :: rest))] else []) := by
    simp [heredocEmit]
  have hfree : scanFreeLines (l0 :: rest) .normal
      = (if looks_executable (pyRStrip head) then [pyStrip (joinNL (l0 :: rest))] else []) := by
    simp only [scanFreeLines, h2, h1]
    rw [scanFreeLines_heredoc_all (pyRStrip head) tag rest [l0] h3]
    exact hemit
  have hfence : scanFenceLines (l0 :: rest) .normal
      = (if looks_executable (pyRStrip head) then [pyStrip (joinNL (l0 :: rest))] else []) := by
    simp only [scanFenceLines, h1]
    rw [scanFenceLines_heredoc_all (pyRStrip head) tag rest [l0] h3]
    exact hemit
  refine ⟨hfree, hfence, ?_, ?_⟩
  · rw [hfree]; cases looks_executable (pyRStrip head) <;> simp
  · rw [hfence]; cases looks_executable (pyRStrip head) <;> simp

/-- Witness for C10: `cat <<EOF` with no closing `EOF` swallows the two
remaining lines and yields the single block command. -/
theorem unterminated_heredoc_consumes_rest_witness :
    scanFreeLines [S "cat <<EOF", S "hello", S "world"] .normal
      = (if looks_executable (pyRStrip (S "cat "))
         then [pyStrip (joinNL [S "cat <<EOF", S "hello", S "world"])] else []) ∧
    scanFenceLines [S "cat <<EOF", S "hello", S "world"] .normal
      = (if looks_executable (pyRStrip (S "cat "))
         then [pyStrip (joinNL [S "cat <<EOF", S "hello", S "world"])] else []) ∧
    (scanFreeLines [S "cat <<EOF", S "hello", S "world"] .normal).length ≤ 1 ∧
    (scanFenceLines [S "cat <<EOF", S "hello", S "world"] .normal).length ≤ 1 :=
  unterminated_heredoc_consumes_rest (S "cat <<EOF") [S "hello", S "world"]
    (S "cat ") (S "EOF") (by decide) (by decide) (by decide)

/-- C1 counterexample: no deny-pattern set exists in the source, and
commands matching the spec's deny families do reach the execution
engine: `rm -rf /` is executed in Unsafe mode (the base flag, no
distinct override exists anywhere), and `/bin/rm -rf /` is executed even
in Safe mode because its head token is an absolute path. -/
theorem deny_pattern_command_reaches_engine :
    denyPatternSpec (S "rm -rf /") = true ∧
    (run_rules [⟨S "R1", S "t", S "high", [S "rm -rf /"], false⟩] [] [] true
        (fun _ => .completed 0 [] []) (fun _ => none)).map RunOutput.engineCalls
      = .ok [S "rm -rf /"] ∧
    denyPatternSpec (S "/bin/rm -rf /") = true ∧
    (run_rules [⟨S "R1", S "t", S "high", [S "/bin/rm -rf /"], false⟩] [] [] false
        (fun _ => .completed 0 [] []) (fun _ => none)).map RunOutput.engineCalls
      = .ok [S "/bin/rm -rf /"] :=
  ⟨by decide, rfl, by decide, rfl⟩

/-- C1 (amended): the source has no deny-pattern decision point: the
only rejection is the safe-mode allow-list check, so with the base
`allow_unsafe` flag set, every command whose head token exists and whose
spawn does not raise — deny-pattern or not — is handed to the execution
engine, and no error is counted. -/
theorem unsafe_mode_sends_every_command_to_engine (cmds : List Str) (beh : ExecBehavior)
    (h1 : ∀ c ∈ cmds, headTokenOf c ≠ none)
    (h2 : ∀ c ∈ cmds, ∀ msg, beh c ≠ .spawnError msg) :
    (runCommands true beh cmds).map CmdBatch.engineCalls = .ok cmds ∧
    (runCommands true beh cmds).map CmdBatch.errorsN = .ok 0 := by
  obtain ⟨b, hb, hcalls, herr⟩ := runCommands_unsafe_all beh cmds h1 h2
  rw [hb]
  exact ⟨by simp [Except.map, hcalls], by simp [Except.map, herr]⟩

/-- Witness for C1 (amended): two deny-family commands both reach the
engine in unsafe mode. -/
theorem unsafe_mode_sends_every_command_to_engine_witness :
    (runCommands true (fun _ => .completed 0 [] [])
        [S "rm -rf /", S "csrutil disable"]).map CmdBatch.engineCalls
      = .ok [S "rm -rf /", S "csrutil disable"] ∧
    (runCommands true (fun _ => .completed 0 [] [])
        [S "rm -rf /", S "csrutil disable"]).map CmdBatch.errorsN = .ok 0 :=
  unsafe_mode_sends_every_command_to_engine [S "rm -rf /", S "csrutil disable"]
    (fun _ => .completed 0 [] []) (by decide)
    (by intro c hc msg hctr; exact ExecOutcome.noConfusion hctr)

/-- C3 counterexample: the spec classifier maps (exit 0, stdout "pass")
to Pass, but the pipeline's reported verdict for exactly that execution
result is whatever the advisory service answers — "fail" for one
response, "inconclusive" for a failed advisory — so the verdict is not
the claimed pure lexical function of the execution result, and an
affirmatively-matching exit-0 run is not reported as Pass. -/
theorem verdict_not_lexical_classifier :
    resultClassifierSpec 0 (S "pass") = S "Pass" ∧
    (run_rules [⟨S "R1", S "t", S "high", [S "/usr/bin/true"], false⟩] [] [] false
        (fun _ => .completed 0 (S "pass") [])
        (fun _ => some (.obj [(S "verdict", .str (S "fail"))]))).map
      (fun o => o.results.map (fun w => aiVerdictStr w.ai)) = .ok [some (S "fail")] ∧
    (run_rules [⟨S "R1", S "t", S "high", [S "/usr/bin/true"], false⟩] [] [] false
        (fun _ => .completed 0 (S "pass") []) (fun _ => none)).map
      (fun o => o.results.map (fun w => aiVerdictStr w.ai)) = .ok [some (S "inconclusive")] ∧
    some (S "fail") ≠ some (S "Pass") ∧
    some (S "fail") ≠ some (S "pass") :=
  ⟨rfl, rfl, rfl, by decide, by decide⟩

/-- C3 (amended): no result classifier exists in the source: the verdict
reported for a rule is exactly the advisory stage's output (`ai_judge`)
on the last evidence row — the parsed service response when one is
obtained, the fixed "inconclusive" fallback otherwise; the exit code and
captured output influence the verdict only through the prompt the
service sees. -/
theorem verdict_is_advisory_output (r : Rule) (c h : Str) (rc : Int) (out err : Str)
    (ai : AiBehavior) (hc : r.commands = [c]) (hh : headTokenOf c = some h)
    (hg : gatePasses false h = true) :
    run_rules [r] [] [] false (fun _ => .completed rc out err) ai
      = .ok ⟨[⟨r.id, r.title, r.severity, r.commands, [⟨c, rc, out, err⟩],
               ai_judge r.id r.title r.severity rc out err (ai 0)⟩], ⟨1, 0, 0⟩, [c]⟩ :=
  run_rules_single_completed r c h rc out err ai hc hh hg

/-- Witness for C3 (amended): a clean exit-0 "pass" output with a failed
advisory yields the advisory fallback verdict. -/
theorem verdict_is_advisory_output_witness :
    run_rules [⟨S "R1", S "t", S "high", [S "/usr/bin/true"], false⟩] [] [] false
        (fun _ => .completed 0 (S "pass") []) (fun _ => none)
      = .ok ⟨[⟨S "R1", S "t", S "high", [S "/usr/bin/true"],
               [⟨S "/usr/bin/true", 0, S "pass", []⟩], aiJudgeFallback⟩],
             ⟨1, 0, 0⟩, [S "/usr/bin/true"]⟩ :=
  verdict_is_advisory_output ⟨S "R1", S "t", S "high", [S "/usr/bin/true"], false⟩
    (S "/usr/bin/true") (S "/usr/bin/true") 0 (S "pass") [] (fun _ => none)
    rfl (by decide) (by decide)

/-- C4 counterexample: two runs with identical execution results
(exit 0, stdout "x", stderr "") that differ only in the advisory
response report different verdicts, visibly flipping the report's Pass
and Fail tallies. -/
theorem advisory_changes_report_tallies :
    (run_rules [⟨S "R1", S "t", S "high", [S "/usr/bin/true"], false⟩] [] [] false
        (fun _ => .completed 0 (S "x") [])
        (fun _ => some (.obj [(S "verdict", .str (S "pass"))]))).map
      (fun o => renderCounts o.results) = .ok (1, 1, 0, 0, 0) ∧
    (run_rules [⟨S "R1", S "t", S "high", [S "/usr/bin/true"], false⟩] [] [] false
        (fun _ => .completed 0 (S "x") [])
        (fun _ => some (.obj [(S "verdict", .str (S "fail"))]))).map
      (fun o => renderCounts o.results) = .ok (1, 0, 1, 0, 0) :=
  ⟨rfl, rfl⟩

/-- C4 (amended): the advisory stage is load-bearing for the reported
verdict: two runs with identical execution results whose advisory
outputs carry different verdict strings report different verdicts —
only the advisory response (through `ai_judge`) determines the verdict
attached to the result row. -/
theorem advisory_response_determines_verdict (r : Rule) (c h : Str) (rc : Int)
    (out err : Str) (ai1 ai2 : AiBehavior) (hc : r.commands = [c])
    (hh : headTokenOf c = some h) (hg : gatePasses false h = true)
    (hne : aiVerdictStr (ai_judge r.id r.title r.severity rc out err (ai1 0))
         ≠ aiVerdictStr (ai_judge r.id r.title r.severity rc out err (ai2 0))) :
    (run_rules [r] [] [] false (fun _ => .completed rc out err) ai1).map
        (fun o => o.results.map (fun w => aiVerdictStr w.ai))
      ≠ (run_rules [r] [] [] false (fun _ => .completed rc out err) ai2).map
        (fun o => o.results.map (fun w => aiVerdictStr w.ai)) := by
  rw [run_rules_single_completed r c h rc out err ai1 hc hh hg,
      run_rules_single_completed r c h rc out err ai2 hc hh hg]
  intro hcontra
  simp [Except.map] at hcontra
  exact hne hcontra

/-- Witness for C4 (amended), with "pass" versus "fail" advisory
responses over the same execution result. -/
theorem advisory_response_determines_verdict_witness :
    (run_rules [⟨S "R1", S "t", S "high", [S "/usr/bin/true"], false⟩] [] [] false
        (fun _ => .completed 0 (S "x") [])
        (fun _ => some (.obj [(S "verdict", .str (S "pass"))]))).map
        (fun o => o.results.map (fun w => aiVerdictStr w.ai))
      ≠ (run_rules [⟨S "R1", S "t", S "high", [S "/usr/bin/true"], false⟩] [] [] false
        (fun _ => .completed 0 (S "x") [])
        (fun _ => some (.obj [(S "verdict", .str (S "fail"))]))).map
        (fun o => o.results.map (fun w => aiVerdictStr w.ai)) :=
  advisory_response_determines_verdict
    ⟨S "R1", S "t", S "high", [S "/usr/bin/true"], false⟩
    (S "/usr/bin/true") (S "/usr/bin/true") 0 (S "x") []
    (fun _ => some (.obj [(S "verdict", .str (S "pass"))]))
    (fun _ => some (.obj [(S "verdict", .str (S "fail"))]))
    rfl (by decide) (by decide) (by decide)

/-- C8: `ai_triage` response handling is strict — a first response that
parses as JSON with the four required fields (verdict, rationale, tags,
confidence) is returned unchanged after a single service call; a
non-JSON or missing-field first response (including the
`__LLM_ERROR__` text substituted on network/timeout faults) triggers
exactly one retry whose stripped prompt demands "JSON only"; and when
that retry also fails the fixed Inconclusive opinion with its fixed
rationale is returned. -/
theorem ai_triage_strict_parse_retry_fallback (category evidence : Str)
    (o : Nat → Option JVal) :
    (∀ v, o 0 = some v → hasRequiredFields v = some true →
      ai_triage category evidence o = ⟨v, [triagePrompt1 category evidence]⟩) ∧
    (triageAccept (o 0) = none →
      (ai_triage category evidence o).promptsIssued
        = [triagePrompt1 category evidence, triagePrompt2 category evidence] ∧
      startsWithStr (S "JSON only") (triagePrompt2 category evidence) = true) ∧
    (triageAccept (o 0) = none → triageAccept (o 1) = none →
      ai_triage category evidence o
        = ⟨triageFallback,
           [triagePrompt1 category evidence, triagePrompt2 category evidence]⟩) := by
  refine ⟨?_, ?_, ?_⟩
  · intro v h0 hf
    have hacc : triageAccept (o 0) = some v := by simp [triageAccept, h0, hf]
    simp [ai_triage, hacc]
  · intro h0
    constructor
    · cases h1 : triageAccept (o 1) <;> simp [ai_triage, h0, h1]
    · simp only [triagePrompt2]
      exact startsWithStr_append _ _ _
        (startsWithStr_append _ _ _
          (startsWithStr_append _ _ _
            (startsWithStr_append _ _ _
              (startsWithStr_append _ _ _ (by decide)))))
  · intro h0 h1
    simp [ai_triage, h0, h1]

/-- Witness for C8: the spec's example well-formed response is returned
unchanged after one call, and a twice-failing service yields the fixed
fallback after exactly two prompts. -/
theorem ai_triage_strict_parse_retry_fallback_witness :
    ai_triage (S "AUTH") (S "no hits") (fun _ => some triageGoodResponse)
      = ⟨triageGoodResponse, [triagePrompt1 (S "AUTH") (S "no hits")]⟩ ∧
    (ai_triage (S "AUTH") (S "no hits") (fun _ => none)).promptsIssued
      = [triagePrompt1 (S "AUTH") (S "no hits"), triagePrompt2 (S "AUTH") (S "no hits")] ∧
    ai_triage (S "AUTH") (S "no hits") (fun _ => none)
      = ⟨triageFallback,
         [triagePrompt1 (S "AUTH") (S "no hits"), triagePrompt2 (S "AUTH") (S "no hits")]⟩ :=
  ⟨(ai_triage_strict_parse_retry_fallback (S "AUTH") (S "no hits")
      (fun _ => some triageGoodResponse)).1 triageGoodResponse rfl (by decide),
   ((ai_triage_strict_parse_retry_fallback (S "AUTH") (S "no hits")
      (fun _ => none)).2.1 rfl).1,
   (ai_triage_strict_parse_retry_fallback (S "AUTH") (S "no hits")
      (fun _ => none)).2.2 rfl rfl⟩

/-- C9 counterexample: the extraction pipeline applies no deduplication
— the same prompt command appearing twice is extracted twice, so the
per-rule command sequence is not duplicate-free. -/
theorem extraction_keeps_duplicates :
    extractCommandBlocks (S "$ ls\n$ ls") = [S "ls", S "ls"] ∧
    ¬ (extractCommandBlocks (S "$ ls\n$ ls")).Nodup := by
  exact ⟨rfl, by decide⟩

/-- C9 (amended): for free-text guidance without heredoc openers, the
extracted sequence is exactly the per-line filter of the
continuation-joined text in first-appearance order — every accepted
prompt line is kept, with no deduplication and no cap applied. -/
theorem extraction_is_ordered_line_filter (text : Str)
    (h : ∀ l ∈ splitLines (join_backslash_lines text), lineOpensHeredoc l = false) :
    extract_from_free_text text
      = (splitLines (join_backslash_lines text)).filterMap freeLineCandidate :=
  scanFreeLines_no_heredoc (splitLines (join_backslash_lines text)) h

/-- Witness for C9 (amended), on guidance with a repeated command. -/
theorem extraction_is_ordered_line_filter_witness :
    extract_from_free_text (S "$ ls\n$ /usr/bin/profiles -P\n$ ls")
      = (splitLines (join_backslash_lines
          (S "$ ls\n$ /usr/bin/profiles -P\n$ ls"))).filterMap freeLineCandidate :=
  extraction_is_ordered_line_filter (S "$ ls\n$ /usr/bin/profiles -P\n$ ls") (by decide)

end Audit
